import Mathlib

/-!
Shallow embedding of the CLT demonstration scripts
(`CLT.py`, `Animated_Histogram.py`, `Interactive_Sample_Size_Slider.py`,
`violin.py`).

Populations and sample means are modelled over `ℚ` (the populations the
scripts build are integer-valued, so all means and variances are exact
rationals).  The random source of `np.random.choice(population, size, ...)`
is an explicit function `pick : ℕ → ℕ` giving, for each position of the
sample, an arbitrary natural number that is reduced modulo the population
length; every sequence of uniform-with-replacement draws is realised by some
`pick`, and probabilistic statements are taken over the uniform distribution
on index functions `Fin n → Fin L` (see `expectation` below).

`np.std` returns a square root; to keep everything in `ℚ` we carry its
square (`np_std_sq`).  Since `Real.sqrt` is strictly monotone on
nonnegative numbers, `σ = 0` iff `σ² = 0`, and `σ` decreases iff `σ²` does,
so every claim about the standard deviation is stated faithfully through
its square.
-/

/-- Error kind raised by the sampling operation.  `np.random.choice` raises
`ValueError` both for an empty population and for a negative `size`; the
spec groups both under the kind `InvalidInput`. -/
inductive SamplingError where
  | invalidInput
  deriving DecidableEq, Repr

/-- Error kind of the spec's `summarize` operation. -/
inductive SummarizeError where
  | insufficientData
  deriving DecidableEq, Repr

/-- Arithmetic mean as computed by `np.mean(xs)` / `xs.mean()`:
`sum(xs) / len(xs)`.  On an empty input numpy emits a RuntimeWarning and
returns NaN without raising; here the rational convention `0 / 0 = 0`
stands in for NaN (either way, no error is raised). -/
def np_mean (xs : List ℚ) : ℚ := xs.sum / xs.length

/-- Sum of squared deviations from the mean: the numerator of the variance
computed by the scripts. -/
def sqDevSum (xs : List ℚ) : ℚ := (xs.map fun x => (x - np_mean xs) ^ 2).sum

/-- Square of `np.std(xs)` with numpy's default `ddof=0`: the mean of the
squared deviations from the mean, exactly as `sample_means.std()` computes
it (before the final square root, which we do not take — see the header
comment). -/
def np_std_sq (xs : List ℚ) : ℚ := np_mean (xs.map fun x => (x - np_mean xs) ^ 2)

/-- Sample variance with divisor `length - 1` (`ddof=1`), following the
spec's alternative wording "population (or sample) standard deviation"
squared.  None of the scripts uses it; it exists only to be compared with
`np_std_sq`. -/
def sampleVarSpec (xs : List ℚ) : ℚ := sqDevSum xs / ((xs.length : ℚ) - 1)

/-- Embedding of `np.random.choice(population, size=size, replace=True)`:
`ValueError` (kind `InvalidInput`) on an empty population, and likewise on
a negative `size` ("negative dimensions are not allowed"); otherwise a list
of `size` elements of the population, position `i` holding the element at
index `pick i % population.length`.  Note `size = 0` is accepted by numpy
and yields an empty sample. -/
def np_random_choice (population : List ℚ) (size : ℤ) (pick : ℕ → ℕ) :
    Except SamplingError (List ℚ) :=
  if population.length = 0 then .error .invalidInput
  else if size < 0 then .error .invalidInput
  else .ok ((List.range size.toNat).map fun i =>
    population.getD (pick i % population.length) 0)

/-- The sampling-engine operation shared by all four scripts: draw one
sample of `size` elements with replacement and return its arithmetic mean
(`np.random.choice(population, size=size, replace=True).mean()`). -/
def draw_sample_mean (population : List ℚ) (size : ℤ) (pick : ℕ → ℕ) :
    Except SamplingError ℚ :=
  (np_random_choice population size pick).map np_mean

/-- The sampling loop of `CLT.py` lines 4-13 (and, frame by frame, of
`Animated_Histogram.py`): start from the empty list `sample_means = []` and
append the result of one `draw_sample_mean` per iteration, `count` times;
iteration `i` uses the random source `picks i`. -/
def accumulate_sample_means (population : List ℚ) (size : ℤ) (count : ℕ)
    (picks : ℕ → ℕ → ℕ) : List (Except SamplingError ℚ) :=
  (List.range count).foldl
    (fun acc i => acc ++ [draw_sample_mean population size (picks i)]) []

/-- Modelled from the spec: the repository has no consolidated `summarize`
function — the scripts compute `mu = np.mean(...)` and `sigma = np.std(...)`
inline (`CLT.py` lines 31-32, `Interactive_Sample_Size_Slider.py` lines
99-100) on collections that are never empty, so the `InsufficientData`
guard exists only in the spec's description of the operation
(`summarize(sample_means) -> (mu, sigma)`, "Fails with InsufficientData
when the input is empty").  The non-empty branch is the scripts' inline
computation; the second component is `sigma` carried as its square
(`np_std_sq`), which is `0` exactly when `sigma` is `0`. -/
def summarize (xs : List ℚ) : Except SummarizeError (ℚ × ℚ) :=
  if xs.isEmpty then .error .insufficientData
  else .ok (np_mean xs, np_std_sq xs)

/-! ### Helper lemmas -/

instance {ε α : Type} [DecidableEq ε] [DecidableEq α] : DecidableEq (Except ε α)
  | .error e, .error f =>
    if h : e = f then isTrue (congrArg Except.error h)
    else isFalse fun hc => h (Except.error.inj hc)
  | .error _, .ok _ => isFalse fun hc => Except.noConfusion hc
  | .ok _, .error _ => isFalse fun hc => Except.noConfusion hc
  | .ok a, .ok b =>
    if h : a = b then isTrue (congrArg Except.ok h)
    else isFalse fun hc => h (Except.ok.inj hc)

/-- Folding append-of-one-element from the empty list is `map`: the shape of
every sampling loop in the repository. -/
theorem foldl_append_singleton_eq_map {α β : Type} (f : α → β) :
    ∀ (xs : List α) (init : List β),
      xs.foldl (fun acc x => acc ++ [f x]) init = init ++ xs.map f := by
  intro xs
  induction xs with
  | nil => intro init; simp
  | cons a xs ih => intro init; simp [List.foldl_cons, ih]

theorem np_mean_singleton (x : ℚ) : np_mean [x] = x := by
  simp [np_mean]

theorem np_std_sq_singleton (x : ℚ) : np_std_sq [x] = 0 := by
  simp [np_std_sq, np_mean_singleton, np_mean]

/-- Every element the sampling operation picks is an element of the
population. -/
theorem choice_elem_mem (population : List ℚ) (hpop : population ≠ [])
    (k : ℕ) : population.getD (k % population.length) 0 ∈ population := by
  have hL : 0 < population.length := List.length_pos.mpr hpop
  rw [List.getD_eq_getElem population 0 (Nat.mod_lt _ hL)]
  exact List.getElem_mem _

/-- The mean of a non-empty list lies between any lower bound and any upper
bound for its elements. -/
theorem np_mean_between (xs : List ℚ) (hne : xs ≠ []) (lb ub : ℚ)
    (hlb : ∀ x ∈ xs, lb ≤ x) (hub : ∀ x ∈ xs, x ≤ ub) :
    lb ≤ np_mean xs ∧ np_mean xs ≤ ub := by
  have hlen : 0 < (xs.length : ℚ) := by
    exact_mod_cast List.length_pos.mpr hne
  have h1 : (xs.length : ℚ) * lb ≤ xs.sum := by
    have := List.card_nsmul_le_sum xs lb hlb
    simpa [nsmul_eq_mul] using this
  have h2 : xs.sum ≤ (xs.length : ℚ) * ub := by
    have := List.sum_le_card_nsmul xs ub hub
    simpa [nsmul_eq_mul] using this
  constructor
  · rw [np_mean, le_div_iff₀ hlen]
    linarith
  · rw [np_mean, div_le_iff₀ hlen]
    linarith

/-- On a non-empty population with non-negative requested size, the draw
succeeds and returns the mean of the picked elements. -/
theorem draw_sample_mean_ok (population : List ℚ) (size : ℤ)
    (pick : ℕ → ℕ) (hpop : population ≠ []) (hsize : 0 ≤ size) :
    draw_sample_mean population size pick =
      .ok (np_mean ((List.range size.toNat).map fun i =>
        population.getD (pick i % population.length) 0)) := by
  have hL : population.length ≠ 0 := by
    simpa [List.length_eq_zero] using hpop
  simp [draw_sample_mean, np_random_choice, hL, not_lt.mpr hsize, Except.map]

/-! ### C2: the accumulation loop -/

/-- C2: `accumulate_sample_means population size count picks` performs
`count` calls of `draw_sample_mean` in order, appending each result to an
initially empty sequence: the result has exactly `count` elements and
equals the list of the `count` call results in call order. -/
theorem accumulate_sample_means_length_and_order (population : List ℚ)
    (size : ℤ) (count : ℕ) (picks : ℕ → ℕ → ℕ) :
    (accumulate_sample_means population size count picks).length = count ∧
    accumulate_sample_means population size count picks =
      (List.range count).map fun i =>
        draw_sample_mean population size (picks i) := by
  have h : accumulate_sample_means population size count picks =
      (List.range count).map fun i =>
        draw_sample_mean population size (picks i) := by
    unfold accumulate_sample_means
    rw [foldl_append_singleton_eq_map]
    simp
  exact ⟨by rw [h]; simp, h⟩

/-! ### C3: summarize -/

/-- C3: `summarize` fails with `InsufficientData` exactly when its input is
empty, and `summarize [5]` returns `mu = 5` and `sigma = 0` (the second
component is `sigma` squared, and `sigma² = 0` iff `sigma = 0`). -/
theorem summarize_empty_iff_and_singleton :
    (∀ xs : List ℚ, summarize xs = .error .insufficientData ↔ xs = []) ∧
    summarize [5] = .ok (5, 0) := by
  constructor
  · intro xs
    cases xs with
    | nil => simp [summarize]
    | cons a l => simp [summarize]
  · simp [summarize, np_mean_singleton, np_std_sq_singleton]

/-! ### C1: the sample mean stays within the population's range -/

/-- A list whose `min?` is `some a` contains `a` and is bounded below by
it. -/
theorem list_min?_mem_le (xs : List ℚ) (a : ℚ) (h : xs.min? = some a) :
    a ∈ xs ∧ ∀ b ∈ xs, a ≤ b := by
  haveI : Std.Antisymm (fun x1 x2 : ℚ => x1 ≤ x2) := ⟨fun h h' => le_antisymm h h'⟩
  rw [List.min?_eq_some_iff (fun a => le_refl a) (fun a b => min_choice a b)
    (fun a b c => le_min_iff)] at h
  exact h

/-- A list whose `max?` is `some a` contains `a` and is bounded above by
it. -/
theorem list_max?_mem_le (xs : List ℚ) (a : ℚ) (h : xs.max? = some a) :
    a ∈ xs ∧ ∀ b ∈ xs, b ≤ a := by
  haveI : Std.Antisymm (fun x1 x2 : ℚ => x1 ≤ x2) := ⟨fun h h' => le_antisymm h h'⟩
  rw [List.max?_eq_some_iff (fun a => le_refl a) (fun a b => max_choice a b)
    (fun a b c => max_le_iff)] at h
  exact h

/-- C1: on any non-empty population and any sample size at least 1, the
sampling operation succeeds and its result — the arithmetic mean of the
drawn sample — lies within the closed interval from the population's
minimum to its maximum, whatever the random source. -/
theorem draw_sample_mean_within_min_max (population : List ℚ) (size : ℤ)
    (pick : ℕ → ℕ) (mn mx : ℚ) (hpop : population ≠ []) (hsize : 1 ≤ size)
    (hmn : population.min? = some mn) (hmx : population.max? = some mx) :
    ∃ m, draw_sample_mean population size pick = .ok m ∧ mn ≤ m ∧ m ≤ mx := by
  obtain ⟨-, hmnle⟩ := list_min?_mem_le population mn hmn
  obtain ⟨-, hmxle⟩ := list_max?_mem_le population mx hmx
  set sample := (List.range size.toNat).map fun i =>
    population.getD (pick i % population.length) 0 with hs
  have hmem : ∀ x ∈ sample, x ∈ population := by
    intro x hx
    rw [hs] at hx
    obtain ⟨i, -, rfl⟩ := List.mem_map.mp hx
    exact choice_elem_mem population hpop _
  have hlen : sample.length = size.toNat := by
    rw [hs]; simp
  have hne : sample ≠ [] := by
    apply List.length_pos.mp
    rw [hlen]; omega
  obtain ⟨h1, h2⟩ := np_mean_between sample hne mn mx
    (fun x hx => hmnle x (hmem x hx)) (fun x hx => hmxle x (hmem x hx))
  exact ⟨np_mean sample,
    by rw [draw_sample_mean_ok population size pick hpop (by omega)], h1, h2⟩

/-- Witness for C1: population [1, 2], sample size 1, the random source
that always picks index 0. -/
theorem draw_sample_mean_within_min_max_witness :
    (([1, 2] : List ℚ) ≠ [] ∧ (1 : ℤ) ≤ 1 ∧
      ([1, 2] : List ℚ).min? = some 1 ∧ ([1, 2] : List ℚ).max? = some 2) ∧
    ∃ m, draw_sample_mean [1, 2] 1 (fun _ => 0) = .ok m ∧ 1 ≤ m ∧ m ≤ 2 :=
  ⟨⟨by decide, by decide, by decide, by decide⟩,
    draw_sample_mean_within_min_max [1, 2] 1 (fun _ => 0) 1 2
      (by decide) (by decide) (by decide) (by decide)⟩

/-! ### C4: empty population fails, non-empty with positive size succeeds -/

/-- C4: the sampling operation on the empty population fails with kind
`InvalidInput` (numpy raises `ValueError` before looking at the size), and
for every non-empty population and every sample size at least 1 it
succeeds — there is no error condition. -/
theorem draw_sample_mean_empty_population_invalidInput :
    (∀ (size : ℤ) (pick : ℕ → ℕ),
      draw_sample_mean [] size pick = .error .invalidInput) ∧
    (∀ (population : List ℚ) (size : ℤ) (pick : ℕ → ℕ),
      population ≠ [] → 1 ≤ size →
      ∃ m, draw_sample_mean population size pick = .ok m) := by
  constructor
  · intro size pick
    rfl
  · intro population size pick hpop hsize
    exact ⟨_, draw_sample_mean_ok population size pick hpop (by omega)⟩

/-- Witness for C4: the empty population with size 5 fails with
`InvalidInput`; the population [3] with size 2 succeeds. -/
theorem draw_sample_mean_empty_population_invalidInput_witness :
    draw_sample_mean [] 5 (fun _ => 1) = .error .invalidInput ∧
    (([3] : List ℚ) ≠ [] ∧ (1 : ℤ) ≤ 2 ∧
      ∃ m, draw_sample_mean [3] 2 (fun _ => 1) = .ok m) :=
  ⟨draw_sample_mean_empty_population_invalidInput.1 5 (fun _ => 1),
    by decide, by decide,
    draw_sample_mean_empty_population_invalidInput.2 [3] 2 (fun _ => 1)
      (by decide) (by decide)⟩

/-! ### C5: non-positive sample sizes -/

/-- C5 counterexample: with the non-empty population [1] and the
non-positive sample size 0, the sampling operation does not fail —
`np.random.choice(population, size=0)` succeeds with an empty sample, and
`.mean()` of an empty sample is NaN with a RuntimeWarning, not an
exception (`np_mean [] = 0` here).  This refutes the claim that every
non-positive sample size fails fast with `InvalidInput`. -/
theorem draw_sample_mean_zero_size_no_error :
    draw_sample_mean [1] 0 (fun _ => 0) = .ok 0 := by
  rw [draw_sample_mean_ok [1] 0 (fun _ => 0) (by simp) le_rfl]
  simp [np_mean]

/-- C5 amended: a negative sample size fails fast with kind `InvalidInput`
(numpy's "negative dimensions are not allowed" `ValueError`), but sample
size 0 does not fail: on a non-empty population the draw succeeds on the
empty sample and returns its mean (NaN in numpy, `np_mean [] = 0` here). -/
theorem draw_sample_mean_nonpositive_size (population : List ℚ) (size : ℤ)
    (pick : ℕ → ℕ) :
    (size < 0 → draw_sample_mean population size pick = .error .invalidInput) ∧
    (population ≠ [] →
      draw_sample_mean population 0 pick = .ok (np_mean [])) := by
  constructor
  · intro hneg
    by_cases hL : population.length = 0
    · simp only [draw_sample_mean, np_random_choice, hL, if_true, if_pos]
      rfl
    · simp only [draw_sample_mean, np_random_choice, hL, if_false, if_neg,
        hneg, if_pos]
      rfl
  · intro hpop
    rw [draw_sample_mean_ok population 0 pick hpop le_rfl]
    rfl

/-- Witness for C5 (amended form): population [1, 2] with size -1 fails
with `InvalidInput`; the same population with size 0 succeeds. -/
theorem draw_sample_mean_nonpositive_size_witness :
    draw_sample_mean [1, 2] (-1) (fun _ => 0) = .error .invalidInput ∧
    draw_sample_mean [1, 2] 0 (fun _ => 0) = .ok (np_mean []) :=
  ⟨(draw_sample_mean_nonpositive_size [1, 2] (-1) (fun _ => 0)).1 (by decide),
    (draw_sample_mean_nonpositive_size [1, 2] 0 (fun _ => 0)).2 (by decide)⟩

/-! ### C9: sigma is the population standard deviation (ddof = 0) -/

/-- C9: in every script the fitted `sigma` squared (`np.std` with the
default `ddof=0`) is the population variance of the sample-mean
collection — the sum of squared deviations divided by the collection's
length — and not the sample variance with divisor `length - 1`; in
particular on any singleton collection it is `0`, hence `sigma = 0`. -/
theorem np_std_sq_is_population_variance :
    (∀ xs : List ℚ, xs ≠ [] →
      np_std_sq xs * (xs.length : ℚ) = sqDevSum xs) ∧
    (∀ x : ℚ, np_std_sq [x] = 0) ∧
    np_std_sq [0, 1] ≠ sampleVarSpec [0, 1] := by
  refine ⟨?_, np_std_sq_singleton, ?_⟩
  · intro xs hne
    have hlen : (xs.length : ℚ) ≠ 0 := by
      exact_mod_cast (List.length_pos.mpr hne).ne'
    have h : np_std_sq xs = sqDevSum xs / (xs.length : ℚ) := by
      rw [np_std_sq, np_mean, ← sqDevSum, List.length_map]
    rw [h, div_mul_cancel₀ _ hlen]
  · norm_num [np_std_sq, sampleVarSpec, sqDevSum, np_mean]

/-- Witness for C9 at the two-element collection [1, 3]. -/
theorem np_std_sq_is_population_variance_witness :
    (([1, 3] : List ℚ) ≠ []) ∧
    np_std_sq [1, 3] * ((([1, 3] : List ℚ).length : ℕ) : ℚ) = sqDevSum [1, 3] :=
  ⟨by simp, np_std_sq_is_population_variance.1 [1, 3] (by simp)⟩

/-! ### C7: the normal fit is gated on the collection size -/

/-- One frame of the `update` closure of `Animated_Histogram.py`: draw one
sample of `sample_size` elements from the population and append its mean
to the running collection (lines 34-37); the sampling-distribution
histogram is drawn only when `len(sample_means) > 5` (line 68), and the
normal-fit parameters `(mu, sigma)` are computed only when
`len(sample_means) > 30` (lines 85-87).  Returns the new collection,
whether the histogram was drawn, and the fit if one was computed (`sigma`
carried squared). -/
def anim_update (population : List ℚ) (sample_size : ℕ) (pick : ℕ → ℕ)
    (sample_means : List ℚ) : List ℚ × Bool × Option (ℚ × ℚ) :=
  let sample := (List.range sample_size).map fun i =>
    population.getD (pick i % population.length) 0
  let ms := sample_means ++ [np_mean sample]
  (ms, decide (5 < ms.length),
    if 30 < ms.length then some (np_mean ms, np_std_sq ms) else none)

/-- The state of `animated_clt` after its first `n` frames: the
accumulated collection, with the histogram/fit decisions of the most
recent frame (absent before the first frame). -/
def anim_run (population : List ℚ) (sample_size : ℕ) (picks : ℕ → ℕ → ℕ) :
    ℕ → List ℚ × Bool × Option (ℚ × ℚ)
  | 0 => ([], false, none)
  | n + 1 =>
    anim_update population sample_size (picks n)
      (anim_run population sample_size picks n).1

/-- Each frame appends exactly one sample mean. -/
theorem anim_run_length (population : List ℚ) (sample_size : ℕ)
    (picks : ℕ → ℕ → ℕ) (n : ℕ) :
    (anim_run population sample_size picks n).1.length = n := by
  induction n with
  | zero => rfl
  | succ n ih => simp [anim_run, anim_update, ih]

/-- C7: after `n` frames of `Animated_Histogram.py` the collection holds
`n` sample means; the sampling-distribution histogram of the latest frame
is drawn iff the collection has more than 5 elements; and the fitted
normal parameters are computed iff it has more than 30 elements — before
those thresholds are passed, no histogram and no fit is produced. -/
theorem anim_fit_only_above_threshold (population : List ℚ)
    (sample_size : ℕ) (picks : ℕ → ℕ → ℕ) (n : ℕ) :
    (anim_run population sample_size picks n).1.length = n ∧
    ((anim_run population sample_size picks n).2.1 = true ↔ 5 < n) ∧
    ((anim_run population sample_size picks n).2.2.isSome = true ↔ 30 < n) := by
  refine ⟨anim_run_length _ _ _ n, ?_, ?_⟩
  · cases n with
    | zero => simp [anim_run]
    | succ m =>
      have hl := anim_run_length population sample_size picks m
      simp [anim_run, anim_update, hl]
  · cases n with
    | zero => simp [anim_run]
    | succ m =>
      have hl := anim_run_length population sample_size picks m
      by_cases h : 30 < m + 1
      · simp [anim_run, anim_update, hl, h]
      · simp [anim_run, anim_update, hl, h]

/-! ### C6: graceful MP4 degradation -/

/-- Environment of the `__main__` export block of `Animated_Histogram.py`:
whether `shutil.which('ffmpeg')` finds the encoder on the PATH, and
whether the attempted `anim.save(..., writer_mp4)` call raises
`FileNotFoundError`/`OSError`. -/
structure ExportEnv where
  ffmpeg_on_path : Bool
  mp4_save_raises : Bool
  deriving DecidableEq, Repr

/-- Observable outcome of one run of the export block. -/
structure RunResult where
  messages : List String
  mp4_written : Bool
  gif_written : Bool
  deriving DecidableEq, Repr

/-- The `__main__` export block of `Animated_Histogram.py` lines 119-144:
if `shutil.which('ffmpeg')` is `None`, print a warning and skip the MP4;
otherwise try to save the MP4, and if the writer raises, print a warning
and skip it; in every case then save the GIF.  The model is a total
function into `RunResult`, mirroring that the block lets no exception
escape on any of these conditions.  (The second warning elides the
interpolated exception text of the f-string.) -/
def main_export (env : ExportEnv) : RunResult :=
  let mp4 : List String × Bool :=
    if env.ffmpeg_on_path = false then
      (["Skipping MP4: ffmpeg not found on PATH. Install ffmpeg or add it to PATH to enable MP4 output."],
        false)
    else if env.mp4_save_raises then
      (["Skipping MP4 due to ffmpeg error"], false)
    else
      (["Saved as clt_animation.mp4"], true)
  { messages := ["Generating CLT animation...", "Saving as MP4..."] ++ mp4.1
      ++ ["Saving as GIF...", "Saved as clt_animation.gif"],
    mp4_written := mp4.2,
    gif_written := true }

/-- C6: whenever the encoder is absent, the run emits the user-visible
warning, does not produce the MP4 artifact, raises no unhandled error
(`main_export` is total), and still performs the GIF export in the same
run. -/
theorem main_export_ffmpeg_missing (env : ExportEnv)
    (h : env.ffmpeg_on_path = false) :
    "Skipping MP4: ffmpeg not found on PATH. Install ffmpeg or add it to PATH to enable MP4 output."
        ∈ (main_export env).messages ∧
    (main_export env).mp4_written = false ∧
    (main_export env).gif_written = true := by
  simp [main_export, h]

/-- Witness for C6 in the environment with no encoder on the PATH. -/
theorem main_export_ffmpeg_missing_witness :
    (ExportEnv.mk false false).ffmpeg_on_path = false ∧
    ("Skipping MP4: ffmpeg not found on PATH. Install ffmpeg or add it to PATH to enable MP4 output."
        ∈ (main_export (ExportEnv.mk false false)).messages ∧
      (main_export (ExportEnv.mk false false)).mp4_written = false ∧
      (main_export (ExportEnv.mk false false)).gif_written = true) :=
  ⟨rfl, main_export_ffmpeg_missing (ExportEnv.mk false false) rfl⟩

/-! ### C10: the violin animation's per-frame display -/

/-- The sample-size progression of `violin.py`:
`list(range(5, max_sample_size + 1, 5))` with `max_sample_size = 100`,
i.e. 5, 10, ..., 100. -/
def sample_size_progression : List ℕ := List.range' 5 20 5

/-- The slice `sample_size_progression[:frame+1]` of `violin.py` line 43. -/
def current_sample_sizes (frame : ℕ) : List ℕ :=
  sample_size_progression.take (frame + 1)

/-- The indices `np.linspace(0, last, k)` with `dtype=int` as `violin.py`
uses them (lines 50-51): `i * last / (k - 1)` for `i < k`, truncated
toward zero.  The float computation never truncates across an integer
boundary here — interior points that are not exactly integral sit at
distance at least `1/7` from any integer, far beyond double rounding
error — so natural-number division is the exact model. -/
def linspace_int (last k : ℕ) : List ℕ :=
  (List.range k).map fun i => i * last / (k - 1)

/-- The sizes whose violins are displayed at `frame` (`violin.py` lines
46-52): all of `current_sample_sizes` while there are at most 4 of them,
otherwise the sizes at `min 8 len` evenly spaced indices. -/
def display_sizes (frame : ℕ) : List ℕ :=
  let cur := current_sample_sizes frame
  if cur.length ≤ 4 then cur
  else (linspace_int (cur.length - 1) (min 8 cur.length)).map fun i =>
    cur.getD i 0

/-- The per-frame data of `violin.py`'s `update` (lines 54-62): for each
displayed size, a list of 1000 sample means generated fresh that frame;
`picks size t i` is the random index for position `i` of repetition `t`
at that size. -/
def violin_frame_means (population : List ℚ) (picks : ℕ → ℕ → ℕ → ℕ)
    (frame : ℕ) : List (List ℚ) :=
  (display_sizes frame).map fun size =>
    (List.range 1000).map fun t =>
      np_mean ((List.range size).map fun i =>
        population.getD (picks size t i % population.length) 0)

/-- C10: at every frame `f < 20` of the violin animation, the number of
violins displayed is `min (f+1) 8`; the smallest displayed size is always
5 and the largest is `5*(f+1)`, the `(f+1)`-th element of the progression
5, 10, ..., 100; and each displayed violin is computed from exactly 1000
sample means generated that frame. -/
theorem violin_display_spec (population : List ℚ) (picks : ℕ → ℕ → ℕ → ℕ)
    (frame : ℕ) (hf : frame < 20) :
    (display_sizes frame).length = min (frame + 1) 8 ∧
    (display_sizes frame).min? = some 5 ∧
    (display_sizes frame).max? = some (5 * (frame + 1)) ∧
    (violin_frame_means population picks frame).length =
      (display_sizes frame).length ∧
    ∀ ms ∈ violin_frame_means population picks frame, ms.length = 1000 := by
  have h : ∀ f, f < 20 → ((display_sizes f).length = min (f + 1) 8 ∧
      (display_sizes f).min? = some 5 ∧
      (display_sizes f).max? = some (5 * (f + 1))) := by decide
  obtain ⟨h1, h2, h3⟩ := h frame hf
  refine ⟨h1, h2, h3, ?_, ?_⟩
  · simp [violin_frame_means]
  · intro ms hms
    obtain ⟨size, -, rfl⟩ := List.mem_map.mp hms
    simp

/-- Witness for C10 at frame 10 with the singleton population [0]. -/
theorem violin_display_spec_witness :
    10 < 20 ∧
    ((display_sizes 10).length = min (10 + 1) 8 ∧
      (display_sizes 10).min? = some 5 ∧
      (display_sizes 10).max? = some (5 * (10 + 1)) ∧
      (violin_frame_means [0] (fun _ _ _ => 0) 10).length =
        (display_sizes 10).length ∧
      ∀ ms ∈ violin_frame_means [0] (fun _ _ _ => 0) 10, ms.length = 1000) :=
  ⟨by decide, violin_display_spec [0] (fun _ _ _ => 0) 10 (by decide)⟩

/-! ### C8: the spread of the sampling distribution shrinks with `n`

The claim is statistical: each entry of the Sample Mean Collection is an
independent draw of `draw_sample_mean`, so the empirical standard
deviation of the collection estimates the standard deviation of the
distribution of one sample mean under the uniform random source.  We
compute that distribution's variance exactly — it is
`np_std_sq population / n` — and show it strictly decreases in the sample
size (hence so does its square root, the standard deviation the claim
speaks about). -/

/-- A list's sum as a sum over its index type. -/
theorem list_sum_eq_fin_sum (xs : List ℚ) :
    xs.sum = ∑ i : Fin xs.length, xs.get i := by
  induction xs with
  | nil => simp
  | cons a l ih =>
    simp only [List.sum_cons, List.length_cons, Fin.sum_univ_succ, ih]
    simp

/-- A mapped list's sum as a sum over the original index type. -/
theorem list_map_sum_eq_fin_sum (xs : List ℚ) (f : ℚ → ℚ) :
    (xs.map f).sum = ∑ i : Fin xs.length, f (xs.get i) := by
  induction xs with
  | nil => simp
  | cons a l ih =>
    simp only [List.map_cons, List.sum_cons, List.length_cons,
      Fin.sum_univ_succ, ih]
    simp

/-- Expectation of an observable of `n` independent uniform draws of an
index below `L`: the average of its values over all `L ^ n` index
functions.  This is the distribution from which
`np.random.choice(population, size=n)` draws its index sequence. -/
def expectation (L n : ℕ) (f : (Fin n → Fin L) → ℚ) : ℚ :=
  (∑ ω : Fin n → Fin L, f ω) / (L : ℚ) ^ n

/-- The sample mean as a random variable over the index functions: the
value `draw_sample_mean` returns when the random source realises `ω`. -/
def sampleMeanRV (population : List ℚ) (n : ℕ)
    (ω : Fin n → Fin population.length) : ℚ :=
  (∑ i, population.get (ω i)) / (n : ℚ)

/-- Variance of one sample mean of size `n` under the uniform random
source: the expected squared deviation from the population mean. -/
def meanVariance (population : List ℚ) (n : ℕ) : ℚ :=
  expectation population.length n
    (fun ω => (sampleMeanRV population n ω - np_mean population) ^ 2)

/-- Splitting a sum over `Fin (n+1) → Fin L` into the first coordinate and
the rest. -/
theorem sum_fun_succ (L n : ℕ) (F : (Fin (n + 1) → Fin L) → ℚ) :
    ∑ ω : Fin (n + 1) → Fin L, F ω =
      ∑ a : Fin L, ∑ ω : Fin n → Fin L, F (Fin.cons a ω) := by
  rw [← Equiv.sum_comp (Fin.consEquiv fun _ => Fin L) F, Fintype.sum_prod_type]
  rfl

/-- Evaluating a coordinate sum on a `Fin.cons`. -/
theorem cons_sum_split (L n : ℕ) (d : Fin L → ℚ) (a : Fin L)
    (ω : Fin n → Fin L) :
    (∑ i : Fin (n + 1), d ((Fin.cons a ω : Fin (n + 1) → Fin L) i)) =
      d a + ∑ i : Fin n, d (ω i) := by
  rw [Fin.sum_univ_succ]
  simp

/-- A centered observable sums to zero over all index functions. -/
theorem sum_centered (L n : ℕ) (d : Fin L → ℚ) (hd : ∑ j, d j = 0) :
    ∑ ω : Fin n → Fin L, (∑ i, d (ω i)) = 0 := by
  induction n with
  | zero => simp
  | succ n ih =>
    rw [sum_fun_succ]
    simp only [cons_sum_split]
    have hone : ∀ a : Fin L,
        (∑ ω : Fin n → Fin L, (d a + ∑ i, d (ω i))) = (L ^ n : ℕ) • d a := by
      intro a
      rw [Finset.sum_add_distrib, ih, add_zero, Finset.sum_const,
        Finset.card_univ, Fintype.card_fun, Fintype.card_fin, Fintype.card_fin]
    simp only [hone]
    rw [← Finset.smul_sum, hd, smul_zero]

/-- Second moment of the centered coordinate sum: independence makes all
cross terms vanish, leaving `n` copies of the population's squared
deviations, weighted by `L ^ n` (stated multiplied by `L` to avoid
`L ^ (n - 1)`). -/
theorem sum_centered_sq (L n : ℕ) (d : Fin L → ℚ) (hd : ∑ j, d j = 0) :
    (L : ℚ) * ∑ ω : Fin n → Fin L, (∑ i, d (ω i)) ^ 2 =
      (n : ℚ) * (∑ j, d j ^ 2) * (L : ℚ) ^ n := by
  induction n with
  | zero => simp
  | succ n ih =>
    rw [sum_fun_succ]
    simp only [cons_sum_split]
    have hsplit : ∀ a : Fin L,
        (∑ ω : Fin n → Fin L, (d a + ∑ i, d (ω i)) ^ 2) =
          (L ^ n : ℕ) • (d a ^ 2) +
            (∑ ω : Fin n → Fin L, (∑ i, d (ω i)) ^ 2) := by
      intro a
      have hexp : ∀ ω : Fin n → Fin L, (d a + ∑ i, d (ω i)) ^ 2 =
          d a ^ 2 + 2 * d a * (∑ i, d (ω i)) + (∑ i, d (ω i)) ^ 2 := by
        intro ω; ring
      simp only [hexp]
      rw [Finset.sum_add_distrib, Finset.sum_add_distrib, Finset.sum_const,
        Finset.card_univ, Fintype.card_fun, Fintype.card_fin, Fintype.card_fin,
        ← Finset.mul_sum, sum_centered L n d hd, mul_zero, add_zero]
    simp only [hsplit]
    rw [Finset.sum_add_distrib, Finset.sum_const, Finset.card_univ,
      Fintype.card_fin]
    simp only [nsmul_eq_mul, Nat.cast_pow]
    rw [← Finset.mul_sum]
    push_cast
    linear_combination (L : ℚ) * ih

/-- The scripts' `np.std(...)**2` as a sum over the population's index
type. -/
theorem np_std_sq_eq_fin (population : List ℚ) :
    np_std_sq population =
      (∑ j : Fin population.length,
        (population.get j - np_mean population) ^ 2) /
        (population.length : ℚ) := by
  rw [np_std_sq, np_mean, List.length_map, list_map_sum_eq_fin_sum]

/-- Deviations from the mean sum to zero over a non-empty population. -/
theorem centered_sum_zero (population : List ℚ) (hpop : population ≠ []) :
    (∑ j : Fin population.length,
      (population.get j - np_mean population)) = 0 := by
  have hL : (population.length : ℚ) ≠ 0 := by
    exact_mod_cast (List.length_pos.mpr hpop).ne'
  rw [Finset.sum_sub_distrib, ← list_sum_eq_fin_sum, Finset.sum_const,
    Finset.card_univ, Fintype.card_fin, nsmul_eq_mul, np_mean,
    mul_div_cancel₀ _ hL, sub_self]

/-- The exact variance of one sample mean of size `n` under the uniform
random source: the population variance (`np.std` squared, `ddof=0`)
divided by the sample size. -/
theorem meanVariance_eq (population : List ℚ) (n : ℕ)
    (hpop : population ≠ []) (hn : 0 < n) :
    meanVariance population n = np_std_sq population / (n : ℚ) := by
  have hL0 : (population.length : ℚ) ≠ 0 := by
    exact_mod_cast (List.length_pos.mpr hpop).ne'
  have hn0 : (n : ℚ) ≠ 0 := by exact_mod_cast hn.ne'
  have hdsum : (∑ j : Fin population.length,
      (population.get j - np_mean population)) = 0 :=
    centered_sum_zero population hpop
  have hpt : ∀ ω : Fin n → Fin population.length,
      (sampleMeanRV population n ω - np_mean population) ^ 2 =
        (∑ i, (population.get (ω i) - np_mean population)) ^ 2 /
          (n : ℚ) ^ 2 := by
    intro ω
    have hsub : sampleMeanRV population n ω - np_mean population =
        (∑ i, (population.get (ω i) - np_mean population)) / (n : ℚ) := by
      rw [sampleMeanRV, Finset.sum_sub_distrib, Finset.sum_const,
        Finset.card_univ, Fintype.card_fin, nsmul_eq_mul, sub_div,
        mul_div_cancel_left₀ _ hn0]
    rw [hsub, div_pow]
  have hT : (population.length : ℚ) *
      ∑ ω : Fin n → Fin population.length,
        (∑ i, (population.get (ω i) - np_mean population)) ^ 2 =
      (n : ℚ) * (∑ j : Fin population.length,
        (population.get j - np_mean population) ^ 2) *
        (population.length : ℚ) ^ n :=
    sum_centered_sq population.length n
      (fun j => population.get j - np_mean population) hdsum
  rw [meanVariance, expectation]
  simp only [hpt]
  rw [← Finset.sum_div, np_std_sq_eq_fin, div_div, div_div,
    div_eq_div_iff (mul_ne_zero (pow_ne_zero 2 hn0) (pow_ne_zero n hL0))
      (mul_ne_zero hL0 hn0)]
  linear_combination (n : ℚ) * hT

/-- The population variance is never negative. -/
theorem np_std_sq_nonneg (xs : List ℚ) : 0 ≤ np_std_sq xs := by
  rw [np_std_sq, np_mean]
  apply div_nonneg
  · apply List.sum_nonneg
    intro x hx
    obtain ⟨y, -, rfl⟩ := List.mem_map.mp hx
    positivity
  · positivity

/-- C8: with the population held fixed (and the repetition count fixed, the
collection's entries being independent draws of this distribution), the
variance of a sample mean strictly decreases as the sample size grows from
`n` to `m > n`, provided the population is not constant
(`np_std_sq ≠ 0`) — equivalently its standard deviation, the quantity the
empirical standard deviation of the Sample Mean Collection estimates,
strictly decreases. -/
theorem meanVariance_strictly_decreasing (population : List ℚ) (n m : ℕ)
    (hpop : population ≠ []) (hn : 0 < n) (hnm : n < m)
    (hvar : np_std_sq population ≠ 0) :
    meanVariance population m < meanVariance population n := by
  have h0 : 0 < np_std_sq population :=
    lt_of_le_of_ne (np_std_sq_nonneg population) (Ne.symm hvar)
  rw [meanVariance_eq population n hpop hn,
    meanVariance_eq population m hpop (hn.trans hnm)]
  apply div_lt_div_of_pos_left h0
  · exact_mod_cast hn
  · exact_mod_cast hnm

/-- Witness for C8: the population [0, 1] and sample sizes 1 < 2. -/
theorem meanVariance_strictly_decreasing_witness :
    (([0, 1] : List ℚ) ≠ [] ∧ 0 < 1 ∧ 1 < 2 ∧ np_std_sq [0, 1] ≠ 0) ∧
    meanVariance [0, 1] 2 < meanVariance [0, 1] 1 :=
  ⟨⟨by simp, by decide, by decide, by norm_num [np_std_sq, np_mean]⟩,
    meanVariance_strictly_decreasing [0, 1] 1 2 (by simp) (by decide)
      (by decide) (by norm_num [np_std_sq, np_mean])⟩
